import Mathlib

/-!
Verification development for the `react-declassify` Babel plugin
(`src/index.ts`): a shallow embedding of the plugin's rewriter
(`transformClass`), its per-declaration visitor boundary, the import
resolver (`getReactImport`), the node normalizers
(`functionDeclarationFrom` / `functionExpressionFrom` /
`arrowFunctionExpressionFrom`), the TS entity conversion (`toTSEntity`)
and the comment refresh (`refreshComments`), together with theorems about
them.

Babel AST nodes are embedded as a mutual inductive family carrying exactly
the fields `index.ts` reads or writes; node kinds the plugin never
inspects are collapsed into `Other` constructors carrying an opaque tag.
Tree mutation (`path.replaceWith`, `scope.rename`, `path.remove`) is
embedded by having the rewriter emit the list of operations it performs,
in program order.
-/

/-- The `type` tag of a function-like Babel node
(`FunctionDeclaration | FunctionExpression | ArrowFunctionExpression |
ClassMethod | ClassPrivateMethod | ObjectMethod`). -/
inductive FnKind where
  | functionDeclaration
  | functionExpression
  | arrowFunctionExpression
  | classMethod
  | classPrivateMethod
  | objectMethod
deriving DecidableEq, Repr

/-- Babel `TSEntityName`: an identifier or a qualified name. -/
inductive TSEntityName where
  | id (name : String)
  | qualified (left : TSEntityName) (right : String)
deriving DecidableEq, Repr

mutual

/-- Babel `TSType` nodes, restricted to the shapes `index.ts` builds or
inspects (`TSUnionType`, `TSUndefinedKeyword`, `TSTypeReference`,
`TSFunctionType`); every other type node is `tsOther`. -/
inductive TSType where
  | tsUndefinedKeyword
  | tsNumberKeyword
  | tsUnion (types : List TSType)
  | tsTypeReference (name : TSEntityName) (typeParams : Option (List TSType))
  | tsFunctionType (params : List Pat) (returnType : TSType)
  | tsOther (tag : String)

/-- Babel patterns (binding targets): identifiers (optionally carrying a
type annotation, embedding Babel's `TSTypeAnnotation` wrapper as the bare
type), array/object patterns, assignment (default) patterns and rest
elements. -/
inductive Pat where
  | id (name : String) (tyAnn : Option TSType)
  | arrayPattern (elements : List Pat)
  | objectPattern (properties : List ObjProp)
  | assignmentPattern (left : Pat) (right : Expr)
  | restElement (argument : Pat)

/-- Babel `ObjectProperty` as used in destructuring patterns:
`t.objectProperty(key, value, computed, shorthand)` with an identifier
key. -/
inductive ObjProp where
  | mk (key : String) (value : Pat) (computed : Bool) (shorthand : Bool)

/-- Babel expressions, restricted to the shapes `index.ts` builds or
inspects; anything else is `exprOther` with an opaque tag. `call` carries
the optional `typeParameters` instantiation that `assignTypeParameters`
attaches. -/
inductive Expr where
  | ident (name : String)
  | thisExpr
  | nullLit
  | numLit (value : Int)
  | member (object : Expr) (property : Expr) (computed : Bool)
  | call (callee : Expr) (typeParams : Option (List TSType)) (args : List Expr)
  | functionExpression (id : Option String) (params : List Pat) (body : List Stmt)
      (generator : Bool) (async : Bool) (returnType : Option TSType)
  | arrowFunctionExpression (params : List Pat) (body : FnBody)
      (generator : Bool) (async : Bool) (returnType : Option TSType)
  | exprOther (tag : String)

/-- The body of a function-like node: a block statement or (for arrows)
a bare expression. -/
inductive FnBody where
  | block (stmts : List Stmt)
  | expr (e : Expr)

/-- Babel statements, restricted to the shapes `index.ts` builds;
statements of the original render body it never inspects are `stmtOther`. -/
inductive Stmt where
  | variableDeclaration (kind : String) (declarators : List Declarator)
  | functionDeclaration (id : Option String) (params : List Pat) (body : List Stmt)
      (generator : Bool) (async : Bool) (returnType : Option TSType)
  | returnStatement (argument : Expr)
  | exportDefaultDeclaration (declaration : Expr)
  | stmtOther (tag : String)

/-- Babel `VariableDeclarator`: a binding pattern and an optional
initializer. -/
inductive Declarator where
  | mk (pat : Pat) (init : Option Expr)

/-- The `FunctionLike` input type of the node normalizers
(`index.ts` line 379): any function-like node, with its `type` tag, its
optional `id` (only function declarations/expressions have one), params,
body, `generator`/`async` flags and optional return-type annotation. -/
inductive FunctionLike where
  | mk (kind : FnKind) (id : Option String) (params : List Pat) (body : FnBody)
      (generator : Bool) (async : Bool) (returnType : Option TSType)

end

/-- The `type` tag of a `FunctionLike` node. -/
def FunctionLike.kind : FunctionLike → FnKind
  | .mk k _ _ _ _ _ _ => k

/-- The `id` of a `FunctionLike` node. -/
def FunctionLike.id : FunctionLike → Option String
  | .mk _ i _ _ _ _ _ => i

/-- The `params` of a `FunctionLike` node. -/
def FunctionLike.params : FunctionLike → List Pat
  | .mk _ _ p _ _ _ _ => p

/-- The `body` of a `FunctionLike` node. -/
def FunctionLike.body : FunctionLike → FnBody
  | .mk _ _ _ b _ _ _ => b

/-- The `generator` flag of a `FunctionLike` node. -/
def FunctionLike.generator : FunctionLike → Bool
  | .mk _ _ _ _ g _ _ => g

/-- The `async` flag of a `FunctionLike` node. -/
def FunctionLike.async : FunctionLike → Bool
  | .mk _ _ _ _ _ a _ => a

/-- The `returnType` annotation of a `FunctionLike` node. -/
def FunctionLike.returnType : FunctionLike → Option TSType
  | .mk _ _ _ _ _ _ r => r

/-- The Babel `type` tag of an expression (JS `expr.type`), used in the
`toTSEntity` error message. -/
def Expr.typeTag : Expr → String
  | .ident _ => "Identifier"
  | .thisExpr => "ThisExpression"
  | .nullLit => "NullLiteral"
  | .numLit _ => "NumericLiteral"
  | .member _ _ _ => "MemberExpression"
  | .call _ _ _ => "CallExpression"
  | .functionExpression _ _ _ _ _ _ => "FunctionExpression"
  | .arrowFunctionExpression _ _ _ _ _ => "ArrowFunctionExpression"
  | .exprOther tag => tag

/-- The two kinds of exception the plugin distinguishes at its
per-declaration boundary (`e instanceof AnalysisError`): the structural
diagnostic `AnalysisError` thrown by the analyzer, and any other (plain)
JS error. -/
inductive JsError where
  | analysisError (message : String)
  | plainError (message : String)
deriving DecidableEq, Repr

/-- `toTSEntity` (`index.ts` lines 330-341): convert an expression into a
`TSEntityName`, recursing through non-computed member accesses with
identifier properties; any other shape throws a plain `Error`. -/
def toTSEntity : Expr → Except JsError TSEntityName
  | .member obj (.ident p) false =>
    (toTSEntity obj).map (fun l => TSEntityName.qualified l p)
  | .ident n => .ok (TSEntityName.id n)
  | e => .error (.plainError ("Cannot convert to TSEntityName: " ++ e.typeTag))

/-- Claim-side characterization (from the spec's words, for comparison
with `toTSEntity`): the expression shapes "built solely from identifiers
and non-computed member accesses with identifier properties". -/
def isEntityShape : Expr → Bool
  | .member obj (.ident _) false => isEntityShape obj
  | .ident _ => true
  | _ => false

/-! ## Import resolver (`getReactImport`, `index.ts` lines 343-377) -/

/-- How the React superclass was referenced (`LibRef` from the analyzer):
a bare global identifier, a namespace import, or a named-import specifier
whose enclosing import declaration is modelled by `ImportState`. -/
inductive LibRef where
  | global (globalName : String)
  | ns (localName : String)
  | named
deriving DecidableEq, Repr

/-- A specifier of the enclosing `ImportDeclaration`:
`import def, { imported as local }, * as nsLocal from "react"`. -/
inductive ImportSpec where
  | importSpecifier (localName : String) (importedName : String)
  | importDefaultSpecifier (localName : String)
  | importNamespaceSpecifier (localName : String)
deriving DecidableEq, Repr

/-- The mutable state `getReactImport` touches for a named-import
reference: the enclosing import declaration's specifier list and the
names bound in its scope (`decl.scope`). -/
structure ImportState where
  specifiers : List ImportSpec
  bindings : List String
deriving DecidableEq, Repr

/-- The candidate names Babel's uid generator tries in order:
`_name`, `_name2`, `_name3`, ... -/
def uidCandidate (name : String) (i : Nat) : String :=
  if i == 0 then "_" ++ name else "_" ++ name ++ toString (i + 1)

/-- Modelled from the spec: Babel's `scope.generateUid` (an external
collaborator, "scope-aware unique-name generation"): returns the first
candidate `_name`, `_name2`, ... not colliding with a visible binding,
and records the generated name as taken. -/
def generateUid (bindings : List String) (name : String) : String × List String :=
  let free := (List.range (bindings.length + 1)).filter
    (fun i => !(bindings.contains (uidCandidate name i)))
  let u := uidCandidate name (free.headD (bindings.length + 1))
  (u, bindings ++ [u])

/-- The loop of `getReactImport` over `decl.get("specifiers")`: the local
name of the first `ImportSpecifier` whose imported name
(`importName(spec.node.imported)`, a plain string here) equals `name`. -/
def findImportSpec (name : String) : List ImportSpec → Option String
  | [] => none
  | .importSpecifier l i :: rest => if i == name then some l else findImportSpec name rest
  | _ :: rest => findImportSpec name rest

/-- `getReactImport` (`index.ts` lines 343-377): build an expression
referring to React's `name`, consistently with how React was referenced.
For `global`/`ns` references a member access; for a named import, the
existing local alias when a specifier importing `name` exists, otherwise
a freshly inserted specifier (`insertAfter` on the last specifier, i.e.
appended).  The inserted specifier is
`t.importSpecifier(local, name === newName ? local : t.identifier(newName))`
(note: both branches of that conditional denote `newName`). -/
def getReactImport (name : String) (ref : LibRef) (st : ImportState) :
    Expr × ImportState :=
  match ref with
  | .global g => (.member (.ident g) (.ident name) false, st)
  | .ns l => (.member (.ident l) (.ident name) false, st)
  | .named =>
    match findImportSpec name st.specifiers with
    | some localName => (.ident localName, st)
    | none =>
      -- No existing decl
      let nb : String × List String :=
        if st.bindings.contains name then generateUid st.bindings name
        else (name, st.bindings)
      let newName := nb.1
      let importedName := if name == newName then newName else newName
      (.ident newName,
       { specifiers := st.specifiers ++ [.importSpecifier newName importedName],
         bindings := nb.2 })

/-- An expression is a possible result of `getReactImport` for the given
hook/type name and library reference. -/
def IsReactHookRef (name : String) (ref : LibRef) (e : Expr) : Prop :=
  ∃ st : ImportState, (getReactImport name ref st).1 = e

/-! ## Comment metadata (`refreshComments`, `index.ts` lines 448-466) -/

/-- A recast/Babel comment attached to a node: its text and its optional
`leading`/`trailing` flags (absent flags are `none`; `??=` fills them). -/
structure Comment where
  value : String
  leading : Option Bool
  trailing : Option Bool
deriving DecidableEq, Repr

/-- The comment metadata of a node: `leadingComments`, `innerComments`,
`trailingComments`, the aggregate `comments` array, and whether recast's
`original` back-pointer is still set. -/
structure CommentData where
  leadingComments : List Comment
  innerComments : List Comment
  trailingComments : List Comment
  comments : List Comment
  original : Bool
deriving DecidableEq, Repr

/-- Babel's `t.addComment(node, "leading", value)`: append one comment
with the given text to `leadingComments` (no `leading`/`trailing` flags
set yet). -/
def addComment (c : CommentData) (value : String) : CommentData :=
  { c with leadingComments := c.leadingComments ++ [⟨value, none, none⟩] }

/-- `refreshComments` (`index.ts` lines 451-466): default the
`leading`/`trailing` flags (`??=`) of leading and trailing comments,
rebuild the aggregate `comments` array as leading ++ inner ++ trailing,
and clear `node.original`. -/
def refreshComments (c : CommentData) : CommentData :=
  let lead := c.leadingComments.map
    (fun cm => { cm with leading := some (cm.leading.getD true),
                         trailing := some (cm.trailing.getD false) })
  let trail := c.trailingComments.map
    (fun cm => { cm with leading := some (cm.leading.getD false),
                         trailing := some (cm.trailing.getD true) })
  { leadingComments := lead,
    innerComments := c.innerComments,
    trailingComments := trail,
    comments := lead ++ c.innerComments ++ trail,
    original := false }

/-- The declaration node at the per-declaration boundary (the class
declaration, or the enclosing `export default` declaration): its
identifier, an opaque rendering of everything else in it, and its comment
metadata. -/
structure DeclNode where
  id : Option String
  classBody : String
  comments : CommentData
deriving DecidableEq, Repr

/-! ## Node normalizers (`index.ts` lines 379-446) and modelled utils -/

/-- Modelled from the spec: `assignReturnType` (utils.js, not under
`src/`) attaches the given return-type annotation to a function
declaration statement and returns the node. -/
def assignReturnTypeStmt (s : Stmt) (rt : Option TSType) : Stmt :=
  match s with
  | .functionDeclaration i p b g a _ => .functionDeclaration i p b g a rt
  | s => s

/-- Modelled from the spec: `assignReturnType` (utils.js, not under
`src/`) attaches the given return-type annotation to a
function/arrow expression and returns the node. -/
def assignReturnTypeExpr (e : Expr) (rt : Option TSType) : Expr :=
  match e with
  | .functionExpression i p b g a _ => .functionExpression i p b g a rt
  | .arrowFunctionExpression p b g a _ => .arrowFunctionExpression p b g a rt
  | e => e

/-- Modelled from the spec: `assignTypeAnnotation` (utils.js, not under
`src/`) attaches an optional type annotation to an identifier pattern and
returns the node. -/
def assignTyAnn (p : Pat) (ty : Option TSType) : Pat :=
  match p with
  | .id n _ => .id n ty
  | p => p

/-- Modelled from the spec: `assignTypeParameters` (utils.js, not under
`src/`) attaches a `TSTypeParameterInstantiation` to a call expression
and returns the node. -/
def assignTypeParameters (e : Expr) (tys : List TSType) : Expr :=
  match e with
  | .call c _ args => .call c (some tys) args
  | e => e

/-- `functionName` (`index.ts` lines 381-387): the `id` of a function
declaration or function expression; `undefined` for methods and arrows. -/
def functionName (node : FunctionLike) : Option String :=
  match node.kind with
  | .functionDeclaration | .functionExpression => node.id
  | _ => none

/-- JS `name ?? functionName(node)`. -/
def nameOrFunctionName (name : Option String) (node : FunctionLike) : Option String :=
  match name with
  | some n => some n
  | none => functionName node

/-- The body normalization both function-node builders perform
(`index.ts` lines 399-403 and 421-425):
`node.body.type === "BlockStatement" ? node.body :
t.blockStatement([t.returnStatement(node.body)])`. -/
def blockBodyOf : FnBody → List Stmt
  | .block ss => ss
  | .expr e => [Stmt.returnStatement e]

/-- `functionDeclarationFrom` (`index.ts` lines 389-409): convert any
function-like node into a (possibly named) function declaration,
normalizing an expression body into a block with an explicit return and
carrying `generator`, `async` and the return-type annotation. -/
def functionDeclarationFrom (node : FunctionLike) (name : Option String) : Stmt :=
  assignReturnTypeStmt
    (Stmt.functionDeclaration (nameOrFunctionName name node) node.params
      (blockBodyOf node.body) node.generator node.async none)
    node.returnType

/-- `functionExpressionFrom` (`index.ts` lines 411-431): convert any
function-like node into a (possibly named) function expression,
normalizing an expression body into a block with an explicit return and
carrying `generator`, `async` and the return-type annotation. -/
def functionExpressionFrom (node : FunctionLike) (name : Option String) : Expr :=
  assignReturnTypeExpr
    (Expr.functionExpression (nameOrFunctionName name node) node.params
      (blockBodyOf node.body) node.generator node.async none)
    node.returnType

/-- `arrowFunctionExpressionFrom` (`index.ts` lines 433-446): convert a
function-like node into an arrow expression via
`t.arrowFunctionExpression(node.params, node.body, node.async)` (the body
is passed through unchanged and the builder's `generator` defaults to
`false`), then attach the return-type annotation. -/
def arrowFunctionExpressionFrom (node : FunctionLike) : Expr :=
  assignReturnTypeExpr
    (Expr.arrowFunctionExpression node.params node.body false node.async none)
    node.returnType

/-! ## The verified component model consumed by the rewriter
(`ComponentHead` / `ComponentBody` from the analyzer, shaped exactly as
`transformClass` reads them) -/

/-- A local alias a prop is bound to (e.g. `foo` in
`const { foo } = this.props`), with the scope it lives in. -/
structure PropAlias where
  scopeId : Nat
  localName : String
deriving DecidableEq, Repr

/-- A recorded prop-read site (`prop.sites[..].path`), identified by its
tree location. -/
structure PropSite where
  siteId : Nat
deriving DecidableEq, Repr

/-- The prop's member in the declared props type (`prop.typing`): whether
it is a `TSPropertySignature`, its `optional` flag and its (unwrapped)
type annotation. -/
structure TypingNode where
  isPropertySignature : Bool
  optional : Bool
  tyAnn : Option TSType

/-- One `PropBinding`: aliases, the canonical local name
(`newAliasName`, asserted non-null by the rewriter), optional default
value and typing, the `needsAlias` flag and the read sites. -/
structure PropBinding where
  aliases : List PropAlias
  newAliasName : String
  defaultValue : Option Expr
  typing : Option TypingNode
  needsAlias : Bool
  sites : List PropSite

/-- A recorded bare props-object access site (`body.props.sites[..]`):
the member expression `this.props` at that location. -/
structure PropsObjSite where
  siteId : Nat
  object : Expr
  property : Expr
  computed : Bool

/-- `body.props`: the per-prop map (insertion-ordered), the `hasDefaults`
flag, and the bare props-object access sites. -/
structure PropsInfo where
  props : List (String × PropBinding)
  hasDefaults : Bool
  sites : List PropsObjSite

/-- The kind of a recorded state site: a plain read (`"expr"`) or a
`setState`-style write carrying the replacement value expression
(`site.valuePath.node`). -/
inductive StateSiteKind where
  | expr
  | setState (value : Expr)

/-- A recorded state site, identified by its tree location. -/
structure StateSite where
  siteId : Nat
  kind : StateSiteKind

/-- The recorded type of a state field: either a method signature (whose
`params` and `returnType` the rewriter reassembles into a
`TSFunctionType`) or a plain type node. -/
inductive StateTyAnn where
  | method (params : List Pat) (returnType : TSType)
  | type (node : TSType)

/-- One `StateField`: the chosen local/setter names (asserted non-null by
the rewriter), the optional initial-value expression
(`field.init.valuePath.node`), the optional type, and the sites. -/
structure StateField where
  localName : String
  localSetterName : String
  init : Option Expr
  tyAnn : Option StateTyAnn
  sites : List StateSite

/-- The kind of a recorded user-defined-field site; only `"expr"` sites
are rewritten. -/
inductive UserSiteKind where
  | expr
  | otherSite (tag : String)

/-- A recorded user-defined-field site, identified by its tree location. -/
structure UserSite where
  siteId : Nat
  kind : UserSiteKind

/-- The initializer of a `user_defined_function` field: a class method
(`field.init.path.node`) or a function-valued instance field
(`field.init.initPath.node`). -/
inductive UFInit where
  | method (node : FunctionLike)
  | initMember (node : FunctionLike)

/-- The variant tag of a user-defined field (`field.type`):
`user_defined_function`, `user_defined_ref` (no-argument ref
constructor), or `user_defined_direct_ref` (explicit initial value). -/
inductive UserFieldKind where
  | userDefinedFunction (init : UFInit) (tyAnn : Option TSType)
  | userDefinedRef (tyAnn : Option TSType)
  | userDefinedDirectRef (init : Expr) (tyAnn : Option TSType)

/-- One `UserField`: its chosen local name (asserted non-null by the
rewriter), variant, and sites. -/
structure UserField where
  localName : String
  kind : UserFieldKind
  sites : List UserSite

/-- `body.userDefined`: the insertion-ordered field map. -/
structure UserDefinedInfo where
  fields : List (String × UserField)

/-- `body.locals`: tree locations of now-redundant declarations the
rewriter removes. -/
structure LocalsInfo where
  removePaths : List Nat
deriving Repr

/-- `body.render`: the render method's body statements and the
`(scope, oldName, newName)` renames scheduled against capture. -/
structure RenderInfo where
  body : List Stmt
  renames : List (Nat × String × String)

/-- `ComponentBody`: the verified model `analyzeBody` hands to the
rewriter. -/
structure ComponentBody where
  props : PropsInfo
  state : List (String × StateField)
  userDefined : UserDefinedInfo
  locals : LocalsInfo
  render : RenderInfo

/-- `ComponentHead`: how React is referenced, and the declared props type
(`head.props`), if any. -/
structure ComponentHead where
  superClassRef : LibRef
  props : Option TSType

/-- Modelled from the spec: `needsProps` (analysis.ts, not under `src/`):
whether any site still refers to the props object — a bare props-object
access was recorded, or a materialized destructuring (a prop needing an
alias) will read from `props`. -/
def needsProps (body : ComponentBody) : Bool :=
  !body.props.sites.isEmpty || body.props.props.any (fun np => np.2.needsAlias)

/-! ## The rewriter (`transformClass`, `index.ts` lines 84-328)

Tree mutations are embedded as emitted operation lists, in the source's
program order: alias renames (lines 88-97), removals (98-100), render
renames (101-105), then the site replacements (106-118, 148-185) as a
`(siteId, replacementNode)` list, the prop-typing mutations (119-147) as
a `(propName, updatedTypingNode)` list, and finally the synthesized
preamble and function node (186-327). -/

/-- Lines 88-97: for every prop alias whose local name differs from the
canonical `newAliasName`, a scope rename is performed. -/
def aliasRenameOps (body : ComponentBody) : List (Nat × String × String) :=
  body.props.props.flatMap (fun np =>
    np.2.aliases.filterMap (fun a =>
      if a.localName != np.2.newAliasName then
        some (a.scopeId, a.localName, np.2.newAliasName)
      else none))

/-- Lines 106-118: the prop site replacements. With `hasDefaults`, every
recorded prop-read site becomes the prop's canonical local identifier
(`this.props.foo -> foo`); otherwise every bare props-object access site
is replaced by its own `property` node (`this.props -> props`). -/
def propSiteRewrites (body : ComponentBody) : List (Nat × Expr) :=
  if body.props.hasDefaults then
    body.props.props.flatMap (fun np =>
      np.2.sites.map (fun s => (s.siteId, Expr.ident np.2.newAliasName)))
  else
    body.props.sites.map (fun s => (s.siteId, s.property))

/-- `t.type === "TSUndefinedKeyword"` on a union member. -/
def isUndefinedKeyword : TSType → Bool
  | .tsUndefinedKeyword => true
  | _ => false

/-- Whether an (optional) annotation is a union type containing the
`undefined` keyword. -/
def unionWithUndefined : Option TSType → Bool
  | some (.tsUnion ts) => ts.any isUndefinedKeyword
  | _ => false

/-- Lines 120-146: the mutation applied to a prop's type member when the
prop has both a default value and a typing reference: set `optional`,
and when the member is a `TSPropertySignature` with a type annotation,
push `undefined` into an existing union (unless already present) or wrap
the annotation in a new union with `undefined`. -/
def widenPropTyping (ty : TypingNode) : TypingNode :=
  let ty := { ty with optional := true }
  if ty.isPropertySignature then
    match ty.tyAnn with
    | some ann =>
      match ann with
      | .tsUnion types =>
        if types.any isUndefinedKeyword then
          -- No need to add undefined
          ty
        else { ty with tyAnn := some (.tsUnion (types ++ [.tsUndefinedKeyword])) }
      | other => { ty with tyAnn := some (.tsUnion [other, .tsUndefinedKeyword]) }
    | none => ty
  else ty

/-- Lines 119-147: one typing update per prop having both a default value
and a typing reference. -/
def propTypingUpdates (body : ComponentBody) : List (String × TypingNode) :=
  body.props.props.filterMap (fun np =>
    match np.2.defaultValue, np.2.typing with
    | some _, some ty => some (np.1, widenPropTyping ty)
    | _, _ => none)

/-- Lines 148-163: the replacement for a state site: a read becomes the
field's local name; a `setState` call becomes the setter local applied to
the recorded value expression. -/
def stateSiteReplacement (f : StateField) (s : StateSite) : Expr :=
  match s.kind with
  | .expr => .ident f.localName
  | .setState v => .call (.ident f.localSetterName) none [v]

/-- Lines 148-163: all state site replacements, in order. -/
def stateSiteRewrites (body : ComponentBody) : List (Nat × Expr) :=
  body.state.flatMap (fun nf =>
    nf.2.sites.map (fun s => (s.siteId, stateSiteReplacement nf.2 s)))

/-- Lines 164-185: all user-defined-field site replacements: `"expr"`
sites of bound-function and ref-container fields become the field's local
name; `"expr"` sites of direct-ref fields become `<localName>.current`. -/
def fieldSiteRewrites (body : ComponentBody) : List (Nat × Expr) :=
  body.userDefined.fields.flatMap (fun nf =>
    match nf.2.kind with
    | .userDefinedFunction _ _ | .userDefinedRef _ =>
      nf.2.sites.filterMap (fun s =>
        match s.kind with
        | .expr => some (s.siteId, Expr.ident nf.2.localName)
        | _ => none)
    | .userDefinedDirectRef _ _ =>
      nf.2.sites.filterMap (fun s =>
        match s.kind with
        | .expr => some (s.siteId,
            Expr.member (.ident nf.2.localName) (.ident "current") false)
        | _ => none))

/-- Lines 194-205: the `ObjectProperty` built for one prop of the
destructuring preamble: key is the prop name, value is the canonical
local identifier with the default value inlined as a destructuring
default when present, non-computed, shorthand iff the name already equals
the canonical local. -/
def propObjProp (np : String × PropBinding) : ObjProp :=
  ObjProp.mk np.1
    (match np.2.defaultValue with
     | some dv => Pat.assignmentPattern (Pat.id np.2.newAliasName none) dv
     | none => Pat.id np.2.newAliasName none)
    false
    (np.1 == np.2.newAliasName)

/-- The object-pattern properties for a list of props. -/
def propsObjProps (props : List (String × PropBinding)) : List ObjProp :=
  props.map propObjProp

/-- Lines 188-210: the props part of the preamble: a single
`const { ... } = props;` destructuring binding every prop with
`needsAlias`, emitted only when at least one prop needs it. -/
def propsPreamble (body : ComponentBody) : List Stmt :=
  let propsWithAlias := body.props.props.filter (fun np => np.2.needsAlias)
  if propsWithAlias.length > 0 then
    [Stmt.variableDeclaration "const" [Declarator.mk
      (Pat.objectPattern (propsObjProps propsWithAlias))
      (some (Expr.ident "props"))]]
  else []

/-- The `TSType` instantiating `useState` when the field is typed
(lines 227-233): a method type is reassembled as a `TSFunctionType`,
otherwise the recorded type node is used. -/
def stateTyAnnType : StateTyAnn → TSType
  | .method ps ret => .tsFunctionType ps ret
  | .type n => n

/-- Lines 212-238: the declaration built for one state field, given the
`useState` reference expression: a `const [local, setLocal] = useState(init?)`
declaration, type-instantiated when in TS mode and the field is typed. -/
def stateHookDecl (ts : Bool) (f : StateField) (hook : Expr) : Stmt :=
  let call := Expr.call hook none
    (match f.init with
     | some e => [e]
     | none => [])
  Stmt.variableDeclaration "const" [Declarator.mk
    (Pat.arrayPattern [Pat.id f.localName none, Pat.id f.localSetterName none])
    (some (match ts, f.tyAnn with
           | true, some ta => assignTypeParameters call [stateTyAnnType ta]
           | _, _ => call))]

/-- Lines 211-239: the state part of the preamble — one state-hook
declaration per field, in map insertion order, threading the import
state through the `useState` lookups. -/
def statePreamble (ref : LibRef) (ts : Bool) :
    List (String × StateField) → ImportState → List Stmt × ImportState
  | [], st => ([], st)
  | nf :: rest, st =>
    let r := getReactImport "useState" ref st
    let rest' := statePreamble ref ts rest r.2
    (stateHookDecl ts nf.2 r.1 :: rest'.1, rest'.2)

/-- Lines 241-269: the declaration built for a `user_defined_function`
field: a hoisted function declaration for methods, and for
function-valued instance fields either a hoisted function declaration
(plain function expression, untyped) or a typed `const` holding the
function/arrow expression. -/
def userFunctionDecl (localName : String) (init : UFInit) (tyAnn : Option TSType) : Stmt :=
  match init with
  | .method fn => functionDeclarationFrom fn (some localName)
  | .initMember fn =>
    match fn.kind, tyAnn with
    | .functionExpression, none => functionDeclarationFrom fn (some localName)
    | k, ta =>
      Stmt.variableDeclaration "const" [Declarator.mk
        (assignTyAnn (Pat.id localName none) ta)
        (some (match k with
               | .functionExpression => functionExpressionFrom fn none
               | _ => arrowFunctionExpressionFrom fn))]

/-- Lines 270-309: the declaration built for a ref-kind field, given the
`useRef` reference expression and the seed argument (`null` for ref
containers, the original initial value for direct refs):
`const local = useRef(seed)`, type-instantiated when in TS mode and the
field is typed. -/
def refHookDecl (ts : Bool) (localName : String) (tyAnn : Option TSType)
    (hook : Expr) (seed : Expr) : Stmt :=
  let call := Expr.call hook none [seed]
  Stmt.variableDeclaration "const" [Declarator.mk
    (Pat.id localName none)
    (some (match ts, tyAnn with
           | true, some ta => assignTypeParameters call [ta]
           | _, _ => call))]

/-- One step of the user-defined-field preamble loop (lines 240-311). -/
def fieldDeclStep (ref : LibRef) (ts : Bool) (nf : String × UserField)
    (st : ImportState) : Stmt × ImportState :=
  match nf.2.kind with
  | .userDefinedFunction init tyAnn => (userFunctionDecl nf.2.localName init tyAnn, st)
  | .userDefinedRef tyAnn =>
    let r := getReactImport "useRef" ref st
    (refHookDecl ts nf.2.localName tyAnn r.1 Expr.nullLit, r.2)
  | .userDefinedDirectRef ie tyAnn =>
    let r := getReactImport "useRef" ref st
    (refHookDecl ts nf.2.localName tyAnn r.1 ie, r.2)

/-- Lines 240-311: the user-defined-field part of the preamble — one
declaration per field, in map insertion order, threading the import
state through the `useRef` lookups. -/
def fieldsPreamble (ref : LibRef) (ts : Bool) :
    List (String × UserField) → ImportState → List Stmt × ImportState
  | [], st => ([], st)
  | nf :: rest, st =>
    let r := fieldDeclStep ref ts nf st
    let rest' := fieldsPreamble ref ts rest r.2
    (r.1 :: rest'.1, rest'.2)

/-- Everything `transformClass` produces: the emitted tree operations,
the preamble, the assembled arrow function and the optional derived
type. -/
structure TransformOutput where
  aliasRenames : List (Nat × String × String)
  removedPaths : List Nat
  renderRenames : List (Nat × String × String)
  rewrites : List (Nat × Expr)
  typingUpdates : List (String × TypingNode)
  preamble : List Stmt
  funcParams : List Pat
  funcBody : List Stmt
  funcNode : Expr
  typeNode : Option TSType

/-- The type-independent portion of `transformClass` (lines 84-318): all
renames, removals, site rewrites and typing updates, the preamble
(props destructuring, then state hooks, then user-defined fields), the
splice of the preamble before the render body, and the arrow function
whose parameter list is `[props]` exactly when `needsProps`. -/
def transformCore (head : ComponentHead) (body : ComponentBody) (ts : Bool)
    (st : ImportState) : TransformOutput × ImportState :=
  let sp := statePreamble head.superClassRef ts body.state st
  let fp := fieldsPreamble head.superClassRef ts body.userDefined.fields sp.2
  let preamble := propsPreamble body ++ sp.1 ++ fp.1
  let funcBody := preamble ++ body.render.body
  let funcParams := if needsProps body then [Pat.id "props" none] else []
  ({ aliasRenames := aliasRenameOps body,
     removedPaths := body.locals.removePaths,
     renderRenames := body.render.renames,
     rewrites := propSiteRewrites body ++ stateSiteRewrites body ++ fieldSiteRewrites body,
     typingUpdates := propTypingUpdates body,
     preamble := preamble,
     funcParams := funcParams,
     funcBody := funcBody,
     funcNode := Expr.arrowFunctionExpression funcParams (FnBody.block funcBody)
       false false none,
     typeNode := none }, fp.2)

/-- `transformClass` (lines 84-328): the rewriter. In TS mode the derived
type is `FC<Props?>` built from the React reference via `toTSEntity`,
which may throw (a plain error); otherwise no type is produced. -/
def transformClass (head : ComponentHead) (body : ComponentBody) (ts : Bool)
    (st : ImportState) : Except JsError (TransformOutput × ImportState) :=
  let c := transformCore head body ts st
  if ts then
    let fc := getReactImport "FC" head.superClassRef c.2
    match toTSEntity fc.1 with
    | .ok ent =>
      let tn := TSType.tsTypeReference ent (head.props.map (fun p => [p]))
      .ok ({ c.1 with typeNode := some tn }, fc.2)
    | .error e => .error e
  else .ok c

/-! ## The per-declaration visitor (`plugin`, `index.ts` lines 8-77) -/

/-- The outcome of visiting one class declaration: skipped (head analysis
found no eligible component), a tree replacement (the three success
shapes), or recovery with a diagnostic comment. -/
inductive VisitResult where
  | skipped
  | replaced (stmt : Stmt)
  | replacedMultiple (stmts : List Stmt)
  | replacedExpr (e : Expr)
  | recovered (node : DeclNode)

/-- The declaration node after diagnostic recovery (`index.ts` lines
48-49 and 70-71): unchanged except that one leading comment
`' react-declassify-disable Cannot perform transformation: <message> '`
is added and the node's comment metadata is refreshed. -/
def diagnosedNode (node : DeclNode) (m : String) : DeclNode :=
  let newComments := refreshComments (addComment node.comments
    (" react-declassify-disable Cannot perform transformation: " ++ m ++ " "))
  { node with comments := newComments }

/-- The catch clause at the per-declaration boundary (`index.ts` lines
44-50 and 66-72): an `AnalysisError` is recovered via `diagnosedNode`;
any other error is re-thrown. -/
def catchBoundary (node : DeclNode) (e : JsError) : Except JsError VisitResult :=
  match e with
  | .analysisError m => .ok (.recovered (diagnosedNode node m))
  | e => .error e

/-- The variable-declarator binding pattern for the replacement
`const <ClassName> = ...` (lines 27-33 and 56-62): the original class
identifier, carrying the derived `FC` type annotation in TS mode. -/
def declPattern (ts : Bool) (n : String) (typeNode : Option TSType) : Pat :=
  if ts then assignTyAnn (Pat.id n none) typeNode else Pat.id n none

/-- The `ClassDeclaration` visitor (`index.ts` lines 13-74). External
collaborators appear as inputs: `ts` is `isTS(state)`, `head` is the
result of `analyzeHead` (`none` means not eligible: skipped),
`analysis` is the outcome of `analyzeBody` (analysis.ts, not under
`src/`), and `st` models the enclosing React import declaration. On
success the class (or its enclosing default-export declaration) is
replaced as in lines 24-43 / 55-65; on an error the catch boundary
applies. A class declaration outside `export default` position is always
named; its absent name is modelled as `""`. -/
def classDeclarationVisitor (ts : Bool) (isDefaultExport : Bool) (node : DeclNode)
    (head : Option ComponentHead) (analysis : Except JsError ComponentBody)
    (st : ImportState) : Except JsError (VisitResult × ImportState) :=
  match head with
  | none => .ok (.skipped, st)
  | some head =>
    if isDefaultExport then
      match analysis.bind (fun body => transformClass head body ts st) with
      | .ok (out, st') =>
        match node.id with
        | some n =>
          .ok (.replacedMultiple
            [Stmt.variableDeclaration "const"
               [Declarator.mk (declPattern ts n out.typeNode) (some out.funcNode)],
             Stmt.exportDefaultDeclaration (Expr.ident n)], st')
        | none => .ok (.replacedExpr out.funcNode, st')
      | .error e => (catchBoundary node e).map (fun r => (r, st))
    else
      match analysis.bind (fun body => transformClass head body ts st) with
      | .ok (out, st') =>
        .ok (.replaced
          (Stmt.variableDeclaration "const"
            [Declarator.mk (declPattern ts (node.id.getD "") out.typeNode)
              (some out.funcNode)]), st')
      | .error e => (catchBoundary node e).map (fun r => (r, st))

/-! ## Helper lemmas -/

/-- An `Except` is `isOk` exactly when it is an `ok`. -/
theorem except_isOk_iff {ε α : Type} (r : Except ε α) :
    r.isOk = true ↔ ∃ a, r = .ok a := by
  cases r with
  | ok a => simp [Except.isOk, Except.toBool]
  | error e => simp [Except.isOk, Except.toBool]

/-- `toTSEntity` succeeds exactly on the entity-shaped expressions. -/
theorem toTSEntity_isOk : ∀ e : Expr, (toTSEntity e).isOk = isEntityShape e
  | .ident _ => rfl
  | .thisExpr => rfl
  | .nullLit => rfl
  | .numLit _ => rfl
  | .call _ _ _ => rfl
  | .functionExpression _ _ _ _ _ _ => rfl
  | .arrowFunctionExpression _ _ _ _ _ => rfl
  | .exprOther _ => rfl
  | .member obj prop computed => by
    have ih := toTSEntity_isOk obj
    cases prop <;> cases computed <;>
      first
        | rfl
        | (cases h : toTSEntity obj <;>
            simp_all [toTSEntity, isEntityShape, Except.map, Except.isOk, Except.toBool])

/-- Every error `toTSEntity` produces is a plain error, never an
`AnalysisError`. -/
theorem toTSEntity_error_plain : ∀ (e : Expr) (err : JsError),
    toTSEntity e = .error err → ∃ m, err = .plainError m
  | .ident _, err => by simp [toTSEntity]
  | .thisExpr, err => fun h => ⟨_, (Except.error.inj h).symm⟩
  | .nullLit, err => fun h => ⟨_, (Except.error.inj h).symm⟩
  | .numLit _, err => fun h => ⟨_, (Except.error.inj h).symm⟩
  | .call _ _ _, err => fun h => ⟨_, (Except.error.inj h).symm⟩
  | .functionExpression _ _ _ _ _ _, err => fun h => ⟨_, (Except.error.inj h).symm⟩
  | .arrowFunctionExpression _ _ _ _ _, err => fun h => ⟨_, (Except.error.inj h).symm⟩
  | .exprOther _, err => fun h => ⟨_, (Except.error.inj h).symm⟩
  | .member obj prop computed, err => by
    have ih := toTSEntity_error_plain obj
    cases prop <;> cases computed <;>
      first
        | exact fun h => ⟨_, (Except.error.inj h).symm⟩
        | (intro h
           cases hobj : toTSEntity obj with
           | ok ent => rw [toTSEntity, hobj] at h; exact absurd h (by simp [Except.map])
           | error e2 =>
             rw [toTSEntity, hobj] at h
             simp [Except.map] at h
             exact h ▸ ih e2 hobj)

/-- `getReactImport` always returns an entity-shaped expression, so
`toTSEntity` succeeds on it. -/
theorem toTSEntity_getReactImport (name : String) (ref : LibRef) (st : ImportState) :
    ∃ ent, toTSEntity (getReactImport name ref st).1 = .ok ent := by
  cases ref with
  | global g => exact ⟨.qualified (.id g) name, rfl⟩
  | ns l => exact ⟨.qualified (.id l) name, rfl⟩
  | named =>
    cases h : findImportSpec name st.specifiers with
    | some l => exact ⟨.id l, by simp [getReactImport, h, toTSEntity]⟩
    | none =>
      simp only [getReactImport, h]
      exact ⟨_, rfl⟩

/-- Inversion for `transformClass`: on success, every field of the output
except `typeNode` is the one computed by `transformCore`. -/
theorem transformClass_fields (head : ComponentHead) (body : ComponentBody) (ts : Bool)
    (st : ImportState) (out : TransformOutput) (st' : ImportState)
    (h : transformClass head body ts st = .ok (out, st')) :
    out.rewrites = (transformCore head body ts st).1.rewrites ∧
    out.preamble = (transformCore head body ts st).1.preamble ∧
    out.funcParams = (transformCore head body ts st).1.funcParams ∧
    out.funcBody = (transformCore head body ts st).1.funcBody ∧
    out.typingUpdates = (transformCore head body ts st).1.typingUpdates := by
  cases ts with
  | false =>
    simp only [transformClass, Bool.false_eq_true, if_false] at h
    obtain ⟨h1, -⟩ := Prod.mk.injEq .. ▸ (Except.ok.inj h)
    subst h1
    exact ⟨rfl, rfl, rfl, rfl, rfl⟩
  | true =>
    obtain ⟨ent, hent⟩ :=
      toTSEntity_getReactImport "FC" head.superClassRef (transformCore head body true st).2
    simp only [transformClass, if_true] at h
    rw [hent] at h
    obtain ⟨h1, -⟩ := Prod.mk.injEq .. ▸ (Except.ok.inj h)
    subst h1
    exact ⟨rfl, rfl, rfl, rfl, rfl⟩

/-- A statement is the state-hook declaration for a given state field,
with the `useState` reference resolved through `getReactImport`. -/
def StateDeclMatches (ref : LibRef) (ts : Bool) (nf : String × StateField) (s : Stmt) : Prop :=
  ∃ hook, IsReactHookRef "useState" ref hook ∧ s = stateHookDecl ts nf.2 hook

/-- A statement is the preamble declaration for a given user-defined
field: the function declaration/typed constant for bound functions, and
a `useRef` declaration seeded with `null` (ref containers) or the
original initial value (direct refs). -/
def FieldDeclMatches (ref : LibRef) (ts : Bool) (nf : String × UserField) (s : Stmt) : Prop :=
  match nf.2.kind with
  | .userDefinedFunction init tyAnn => s = userFunctionDecl nf.2.localName init tyAnn
  | .userDefinedRef tyAnn =>
    ∃ hook, IsReactHookRef "useRef" ref hook ∧
      s = refHookDecl ts nf.2.localName tyAnn hook Expr.nullLit
  | .userDefinedDirectRef ie tyAnn =>
    ∃ hook, IsReactHookRef "useRef" ref hook ∧
      s = refHookDecl ts nf.2.localName tyAnn hook ie

/-- The state preamble yields exactly one matching hook declaration per
state field, in order. -/
theorem statePreamble_forall₂ (ref : LibRef) (ts : Bool) :
    ∀ (fields : List (String × StateField)) (st : ImportState),
      List.Forall₂ (StateDeclMatches ref ts) fields (statePreamble ref ts fields st).1
  | [], _ => List.Forall₂.nil
  | nf :: rest, st =>
    List.Forall₂.cons ⟨(getReactImport "useState" ref st).1, ⟨st, rfl⟩, rfl⟩
      (statePreamble_forall₂ ref ts rest (getReactImport "useState" ref st).2)

/-- One step of the user-defined-field loop yields a matching
declaration. -/
theorem fieldDeclStep_matches (ref : LibRef) (ts : Bool) (nf : String × UserField)
    (st : ImportState) : FieldDeclMatches ref ts nf (fieldDeclStep ref ts nf st).1 := by
  cases hk : nf.2.kind with
  | userDefinedFunction init tyAnn => simp [FieldDeclMatches, fieldDeclStep, hk]
  | userDefinedRef tyAnn =>
    simp only [FieldDeclMatches, fieldDeclStep, hk]
    exact ⟨(getReactImport "useRef" ref st).1, ⟨st, rfl⟩, rfl⟩
  | userDefinedDirectRef ie tyAnn =>
    simp only [FieldDeclMatches, fieldDeclStep, hk]
    exact ⟨(getReactImport "useRef" ref st).1, ⟨st, rfl⟩, rfl⟩

/-- The user-defined-field preamble yields exactly one matching
declaration per field, in order. -/
theorem fieldsPreamble_forall₂ (ref : LibRef) (ts : Bool) :
    ∀ (fields : List (String × UserField)) (st : ImportState),
      List.Forall₂ (FieldDeclMatches ref ts) fields (fieldsPreamble ref ts fields st).1
  | [], _ => List.Forall₂.nil
  | nf :: rest, st =>
    List.Forall₂.cons (fieldDeclStep_matches ref ts nf st)
      (fieldsPreamble_forall₂ ref ts rest (fieldDeclStep ref ts nf st).2)

/-- From a `Forall₂`, every left element has a related right element. -/
theorem forall₂_mem_left {α β : Type} {R : α → β → Prop} :
    ∀ {l₁ : List α} {l₂ : List β}, List.Forall₂ R l₁ l₂ →
      ∀ a ∈ l₁, ∃ b ∈ l₂, R a b := by
  intro l₁ l₂ h
  induction h with
  | nil => intro a ha; cases ha
  | @cons x y l₁ l₂ hr _ ih =>
    intro a ha
    rcases List.mem_cons.mp ha with rfl | ha
    · exact ⟨y, List.mem_cons_self y l₂, hr⟩
    · obtain ⟨b, hb, hR⟩ := ih a ha
      exact ⟨b, List.mem_cons_of_mem y hb, hR⟩

/-- The binding pattern of a single-declarator variable declaration. -/
def Stmt.declaratorPat : Stmt → Option Pat
  | .variableDeclaration _ [Declarator.mk p _] => some p
  | _ => none

/-- The initializer of a single-declarator variable declaration. -/
def Stmt.declaratorInit : Stmt → Option Expr
  | .variableDeclaration _ [Declarator.mk _ i] => i
  | _ => none

/-- The argument list of a call expression. -/
def Expr.callArgs : Expr → List Expr
  | .call _ _ args => args
  | _ => []

/-- A state-hook declaration always binds the `[local, setter]` array
pattern, whatever the hook reference and type instantiation. -/
theorem stateHookDecl_pat (ts : Bool) (f : StateField) (hook : Expr) :
    (stateHookDecl ts f hook).declaratorPat =
      some (Pat.arrayPattern [Pat.id f.localName none, Pat.id f.localSetterName none]) := by
  cases ts <;> cases f.tyAnn <;>
    simp [stateHookDecl, Stmt.declaratorPat, assignTypeParameters]

/-- The hook call of a state declaration receives exactly the recorded
initializer as its argument list (one argument if recorded, none
otherwise), whatever the type instantiation. -/
theorem stateHookDecl_args (ts : Bool) (f : StateField) (hook : Expr) :
    (stateHookDecl ts f hook).declaratorInit.map Expr.callArgs =
      some (match f.init with
            | some e => [e]
            | none => []) := by
  cases hts : ts <;> cases hta : f.tyAnn <;>
    simp [stateHookDecl, Stmt.declaratorInit, assignTypeParameters, Expr.callArgs, hta]

/-! ## Claim theorems -/

/-- C1: at the per-declaration boundary, exactly the structural-analysis
diagnostics (`AnalysisError`) are caught: on an `AnalysisError` the
visitor recovers, returning the original declaration node unchanged
except for one added leading comment of the exact form
`' react-declassify-disable Cannot perform transformation: <message> '`
followed by a refresh of the node's comment metadata (and the run
continues, the import state untouched); any error that is not an
`AnalysisError` is re-thrown, aborting the whole run. -/
theorem analysisError_boundary (ts isDefaultExport : Bool) (node : DeclNode)
    (head : ComponentHead) (analysis : Except JsError ComponentBody)
    (st : ImportState) (m : String) :
    (analysis = .error (.analysisError m) →
      classDeclarationVisitor ts isDefaultExport node (some head) analysis st =
        .ok (.recovered (diagnosedNode node m), st)) ∧
    (diagnosedNode node m).id = node.id ∧
    (diagnosedNode node m).classBody = node.classBody ∧
    (diagnosedNode node m).comments =
      refreshComments (addComment node.comments
        (" react-declassify-disable Cannot perform transformation: " ++ m ++ " ")) ∧
    (addComment node.comments
        (" react-declassify-disable Cannot perform transformation: " ++ m ++ " ")).leadingComments =
      node.comments.leadingComments ++
        [Comment.mk (" react-declassify-disable Cannot perform transformation: " ++ m ++ " ")
          none none] ∧
    (∀ m2, analysis = .error (.plainError m2) →
      classDeclarationVisitor ts isDefaultExport node (some head) analysis st =
        .error (.plainError m2)) := by
  refine ⟨?_, rfl, rfl, rfl, rfl, ?_⟩
  · intro h
    subst h
    cases isDefaultExport <;>
      simp [classDeclarationVisitor, Except.bind, catchBoundary, Except.map]
  · intro m2 h
    subst h
    cases isDefaultExport <;>
      simp [classDeclarationVisitor, Except.bind, catchBoundary, Except.map]

/-- A concrete declaration node for the witnesses. -/
def node0 : DeclNode :=
  { id := some "Hello",
    classBody := "class Hello extends React.Component ...",
    comments := ⟨[], [], [], [], true⟩ }

/-- A concrete component head (React referenced as a global). -/
def head0 : ComponentHead := { superClassRef := .global "React", props := none }

/-- Witness for C1: both boundary behaviours at concrete inputs. -/
theorem analysisError_boundary_witness :
    classDeclarationVisitor false false node0 (some head0)
        (Except.error (JsError.analysisError "Cannot transform this")) ⟨[], []⟩ =
      .ok (.recovered (diagnosedNode node0 "Cannot transform this"), ⟨[], []⟩) ∧
    classDeclarationVisitor false false node0 (some head0)
        (Except.error (JsError.plainError "boom")) ⟨[], []⟩ =
      .error (.plainError "boom") :=
  ⟨(analysisError_boundary false false node0 head0
      (Except.error (JsError.analysisError "Cannot transform this")) ⟨[], []⟩
      "Cannot transform this").1 rfl,
   (analysisError_boundary false false node0 head0
      (Except.error (JsError.plainError "boom")) ⟨[], []⟩ "anything").2.2.2.2.2 "boom" rfl⟩

/-- C9: on success, a named class declaration is replaced by a `const`
variable declaration binding the original class identifier to the
produced function expression; under a default export that declaration is
immediately followed by `export default <identifier>`; an anonymous class
under a default export is replaced in place by the function expression
directly. -/
theorem replacement_shapes (ts isDefaultExport : Bool) (node : DeclNode)
    (head : ComponentHead) (body : ComponentBody) (st : ImportState)
    (analysis : Except JsError ComponentBody) (out : TransformOutput)
    (st' : ImportState) (n : String)
    (hA : analysis = .ok body)
    (hT : transformClass head body ts st = .ok (out, st')) :
    (isDefaultExport = false → node.id = some n →
      classDeclarationVisitor ts isDefaultExport node (some head) analysis st =
        .ok (.replaced (Stmt.variableDeclaration "const"
          [Declarator.mk (declPattern ts n out.typeNode) (some out.funcNode)]), st')) ∧
    (isDefaultExport = true → node.id = some n →
      classDeclarationVisitor ts isDefaultExport node (some head) analysis st =
        .ok (.replacedMultiple
          [Stmt.variableDeclaration "const"
            [Declarator.mk (declPattern ts n out.typeNode) (some out.funcNode)],
           Stmt.exportDefaultDeclaration (Expr.ident n)], st')) ∧
    (isDefaultExport = true → node.id = none →
      classDeclarationVisitor ts isDefaultExport node (some head) analysis st =
        .ok (.replacedExpr out.funcNode, st')) := by
  subst hA
  refine ⟨?_, ?_, ?_⟩ <;> intro hD hid <;> subst hD <;>
    simp [classDeclarationVisitor, Except.bind, hT, hid]

/-- A concrete component body for the witnesses: a `count` state field
initialized to `0` with one read site and one `setState` site, a prop
`foo` with default `1` and declared type `number`, a ref-container field
`box`, a direct-ref field `cnt`, and an opaque render body. -/
def countField : StateField :=
  { localName := "count", localSetterName := "setCount",
    init := some (.numLit 0), tyAnn := none,
    sites := [⟨0, .expr⟩, ⟨1, .setState (Expr.exprOther "count + 1")⟩] }

/-- The typing member of the `foo` prop: a `TSPropertySignature` of type
`number`, not yet optional. -/
def fooTyping : TypingNode :=
  { isPropertySignature := true, optional := false,
    tyAnn := some TSType.tsNumberKeyword }

/-- The `foo` prop: default value `1`, typed, needing a materialized
local, with one read site. -/
def fooProp : PropBinding :=
  { aliases := [], newAliasName := "foo",
    defaultValue := some (.numLit 1), typing := some fooTyping,
    needsAlias := true, sites := [⟨2⟩] }

/-- The ref-container field `box` (`this.box = React.createRef()`), with
one read site. -/
def boxField : UserField :=
  { localName := "box", kind := .userDefinedRef none, sites := [⟨7, .expr⟩] }

/-- The direct-ref field `cnt` (`this.cnt = 5` used mutably), with one
read site. -/
def cntField : UserField :=
  { localName := "cnt", kind := .userDefinedDirectRef (.numLit 5) none,
    sites := [⟨8, .expr⟩] }

/-- The concrete component body assembled from the above. -/
def bodyW : ComponentBody :=
  { props := { props := [("foo", fooProp)], hasDefaults := true, sites := [] },
    state := [("count", countField)],
    userDefined := { fields := [("box", boxField), ("cnt", cntField)] },
    locals := { removePaths := [3] },
    render := { body := [Stmt.stmtOther "renderBody"], renames := [] } }

/-- Extract the success payload of a transform result (defaulting on
error, which the witnesses never hit). -/
def getOkD (r : Except JsError (TransformOutput × ImportState)) :
    TransformOutput × ImportState :=
  match r with
  | .ok p => p
  | .error _ =>
    ({ aliasRenames := [], removedPaths := [], renderRenames := [], rewrites := [],
       typingUpdates := [], preamble := [], funcParams := [], funcBody := [],
       funcNode := Expr.nullLit, typeNode := none }, ⟨[], []⟩)

/-- The concrete transform output for `head0` / `bodyW`. -/
def outW : TransformOutput := (getOkD (transformClass head0 bodyW false ⟨[], []⟩)).1

/-- The concrete post-transform import state for `head0` / `bodyW`. -/
def stW : ImportState := (getOkD (transformClass head0 bodyW false ⟨[], []⟩)).2

/-- Witness for C9: the named, non-default-export replacement at a
concrete input. -/
theorem replacement_shapes_witness :
    classDeclarationVisitor false false node0 (some head0) (Except.ok bodyW) ⟨[], []⟩ =
      .ok (.replaced (Stmt.variableDeclaration "const"
        [Declarator.mk (declPattern false "Hello" outW.typeNode) (some outW.funcNode)]),
        stW) :=
  (replacement_shapes false false node0 head0 bodyW ⟨[], []⟩ (Except.ok bodyW)
    outW stW "Hello" rfl rfl).1 rfl rfl

/-- C10: converting an expression to a TS entity name succeeds exactly on
expressions built solely from identifiers and non-computed member
accesses with identifier properties; on any other shape the thrown error
is a plain error (never a structural-analysis diagnostic), and the
per-declaration catch boundary re-throws plain errors instead of
recovering with a diagnostic comment. -/
theorem toTSEntity_characterization :
    (∀ e : Expr, (toTSEntity e).isOk = isEntityShape e) ∧
    (∀ (e : Expr) (err : JsError), toTSEntity e = .error err →
      ∃ m, err = .plainError m) ∧
    (∀ (node : DeclNode) (m : String),
      catchBoundary node (.plainError m) = .error (.plainError m)) :=
  ⟨toTSEntity_isOk, toTSEntity_error_plain, fun _ _ => rfl⟩

/-- Witness for C10: a call expression is not entity-shaped; converting
it yields the plain error, which the catch boundary re-throws. -/
theorem toTSEntity_characterization_witness :
    (toTSEntity (Expr.call (Expr.ident "f") none [])).isOk =
      isEntityShape (Expr.call (Expr.ident "f") none []) ∧
    (∃ m, JsError.plainError "Cannot convert to TSEntityName: CallExpression" =
      .plainError m) ∧
    catchBoundary node0 (.plainError "Cannot convert to TSEntityName: CallExpression") =
      .error (.plainError "Cannot convert to TSEntityName: CallExpression") :=
  ⟨toTSEntity_characterization.1 (Expr.call (Expr.ident "f") none []),
   toTSEntity_characterization.2.1 (Expr.call (Expr.ident "f") none [])
     (JsError.plainError "Cannot convert to TSEntityName: CallExpression") rfl,
   toTSEntity_characterization.2.2 node0 "Cannot convert to TSEntityName: CallExpression"⟩

/-- C2: every state read site is replaced by the field's local name and
every `setState`-style call by the setter local applied to the recorded
value expression; the preamble contains exactly one `useState`
declaration binding the `[localName, localSetterName]` pair per distinct
state key, in the state map's insertion order, whose call receives the
recorded initial-value expression as its single argument when present
and no argument otherwise. -/
theorem state_roundtrip (head : ComponentHead) (body : ComponentBody) (ts : Bool)
    (st : ImportState) (out : TransformOutput) (st' : ImportState)
    (h : transformClass head body ts st = .ok (out, st')) :
    (∀ nf ∈ body.state, ∀ s ∈ nf.2.sites,
        (s.siteId, stateSiteReplacement nf.2 s) ∈ out.rewrites) ∧
    (∀ (f : StateField) (s : StateSite), s.kind = .expr →
        stateSiteReplacement f s = .ident f.localName) ∧
    (∀ (f : StateField) (s : StateSite) (v : Expr), s.kind = .setState v →
        stateSiteReplacement f s = .call (.ident f.localSetterName) none [v]) ∧
    (∃ stateSeg rest,
      out.preamble = propsPreamble body ++ stateSeg ++ rest ∧
      List.Forall₂ (StateDeclMatches head.superClassRef ts) body.state stateSeg) ∧
    (∀ (f : StateField) (hook : Expr),
      (stateHookDecl ts f hook).declaratorPat =
        some (Pat.arrayPattern [Pat.id f.localName none, Pat.id f.localSetterName none])) ∧
    (∀ (f : StateField) (hook : Expr),
      (stateHookDecl ts f hook).declaratorInit.map Expr.callArgs =
        some (match f.init with
              | some e => [e]
              | none => [])) := by
  have hF := transformClass_fields head body ts st out st' h
  refine ⟨?_, ?_, ?_, ?_, stateHookDecl_pat ts, stateHookDecl_args ts⟩
  · intro nf hnf s hs
    rw [hF.1]
    show (s.siteId, stateSiteReplacement nf.2 s) ∈
      propSiteRewrites body ++ stateSiteRewrites body ++ fieldSiteRewrites body
    refine List.mem_append.mpr (Or.inl (List.mem_append.mpr (Or.inr ?_)))
    simp only [stateSiteRewrites, List.mem_flatMap]
    exact ⟨nf, hnf, List.mem_map_of_mem _ hs⟩
  · intro f s hk
    simp [stateSiteReplacement, hk]
  · intro f s v hk
    simp [stateSiteReplacement, hk]
  · refine ⟨(statePreamble head.superClassRef ts body.state st).1,
      (fieldsPreamble head.superClassRef ts body.userDefined.fields
        (statePreamble head.superClassRef ts body.state st).2).1,
      hF.2.1.trans rfl,
      statePreamble_forall₂ head.superClassRef ts body.state st⟩

/-- Witness for C2: the theorem applied to the concrete component
`head0` / `bodyW`. -/
theorem state_roundtrip_witness :
    (∀ nf ∈ bodyW.state, ∀ s ∈ nf.2.sites,
        (s.siteId, stateSiteReplacement nf.2 s) ∈ outW.rewrites) ∧
    (∀ (f : StateField) (s : StateSite), s.kind = .expr →
        stateSiteReplacement f s = .ident f.localName) ∧
    (∀ (f : StateField) (s : StateSite) (v : Expr), s.kind = .setState v →
        stateSiteReplacement f s = .call (.ident f.localSetterName) none [v]) ∧
    (∃ stateSeg rest,
      outW.preamble = propsPreamble bodyW ++ stateSeg ++ rest ∧
      List.Forall₂ (StateDeclMatches head0.superClassRef false) bodyW.state stateSeg) ∧
    (∀ (f : StateField) (hook : Expr),
      (stateHookDecl false f hook).declaratorPat =
        some (Pat.arrayPattern [Pat.id f.localName none, Pat.id f.localSetterName none])) ∧
    (∀ (f : StateField) (hook : Expr),
      (stateHookDecl false f hook).declaratorInit.map Expr.callArgs =
        some (match f.init with
              | some e => [e]
              | none => [])) :=
  state_roundtrip head0 bodyW false ⟨[], []⟩ outW stW rfl

/-- C3: the preamble is, in this fixed order, the props destructuring
from `props` (binding every `needsAlias` prop with its default inlined as
a destructuring default, and emitted only when at least one prop needs
materialization), then one state-hook declaration per state field in
insertion order, then one declaration per user-defined field in
insertion order; and the whole preamble is spliced before the original
render body's statements. -/
theorem preamble_fixed_order (head : ComponentHead) (body : ComponentBody) (ts : Bool)
    (st : ImportState) (out : TransformOutput) (st' : ImportState)
    (h : transformClass head body ts st = .ok (out, st')) :
    (∃ stateSeg fieldSeg,
      out.preamble = propsPreamble body ++ stateSeg ++ fieldSeg ∧
      List.Forall₂ (StateDeclMatches head.superClassRef ts) body.state stateSeg ∧
      List.Forall₂ (FieldDeclMatches head.superClassRef ts)
        body.userDefined.fields fieldSeg) ∧
    (body.props.props.filter (fun np => np.2.needsAlias) = [] →
      propsPreamble body = []) ∧
    (∀ np0 ∈ body.props.props.filter (fun np => np.2.needsAlias),
      propsPreamble body = [Stmt.variableDeclaration "const" [Declarator.mk
        (Pat.objectPattern
          (propsObjProps (body.props.props.filter (fun np => np.2.needsAlias))))
        (some (Expr.ident "props"))]] ∧
      propObjProp np0 ∈
        propsObjProps (body.props.props.filter (fun np => np.2.needsAlias))) ∧
    (∀ (np : String × PropBinding) (dv : Expr), np.2.defaultValue = some dv →
      propObjProp np = ObjProp.mk np.1
        (Pat.assignmentPattern (Pat.id np.2.newAliasName none) dv)
        false (np.1 == np.2.newAliasName)) ∧
    out.funcBody = out.preamble ++ body.render.body := by
  have hF := transformClass_fields head body ts st out st' h
  refine ⟨?_, ?_, ?_, ?_, ?_⟩
  · exact ⟨(statePreamble head.superClassRef ts body.state st).1,
      (fieldsPreamble head.superClassRef ts body.userDefined.fields
        (statePreamble head.superClassRef ts body.state st).2).1,
      hF.2.1.trans rfl,
      statePreamble_forall₂ head.superClassRef ts body.state st,
      fieldsPreamble_forall₂ head.superClassRef ts body.userDefined.fields
        (statePreamble head.superClassRef ts body.state st).2⟩
  · intro hnil
    simp [propsPreamble, hnil]
  · intro np0 hnp0
    constructor
    · have : (body.props.props.filter (fun np => np.2.needsAlias)).length > 0 :=
        List.length_pos.mpr (List.ne_nil_of_mem hnp0)
      simp [propsPreamble, this]
    · exact List.mem_map_of_mem propObjProp hnp0
  · intro np dv hdv
    simp [propObjProp, hdv]
  · have h1 := hF.2.2.2.1
    have h2 := hF.2.1
    rw [h1, h2]
    exact rfl

/-- Witness for C3: the theorem applied to the concrete component
`head0` / `bodyW`. -/
theorem preamble_fixed_order_witness :
    (∃ stateSeg fieldSeg,
      outW.preamble = propsPreamble bodyW ++ stateSeg ++ fieldSeg ∧
      List.Forall₂ (StateDeclMatches head0.superClassRef false) bodyW.state stateSeg ∧
      List.Forall₂ (FieldDeclMatches head0.superClassRef false)
        bodyW.userDefined.fields fieldSeg) ∧
    (bodyW.props.props.filter (fun np => np.2.needsAlias) = [] →
      propsPreamble bodyW = []) ∧
    (∀ np0 ∈ bodyW.props.props.filter (fun np => np.2.needsAlias),
      propsPreamble bodyW = [Stmt.variableDeclaration "const" [Declarator.mk
        (Pat.objectPattern
          (propsObjProps (bodyW.props.props.filter (fun np => np.2.needsAlias))))
        (some (Expr.ident "props"))]] ∧
      propObjProp np0 ∈
        propsObjProps (bodyW.props.props.filter (fun np => np.2.needsAlias))) ∧
    (∀ (np : String × PropBinding) (dv : Expr), np.2.defaultValue = some dv →
      propObjProp np = ObjProp.mk np.1
        (Pat.assignmentPattern (Pat.id np.2.newAliasName none) dv)
        false (np.1 == np.2.newAliasName)) ∧
    outW.funcBody = outW.preamble ++ bodyW.render.body :=
  preamble_fixed_order head0 bodyW false ⟨[], []⟩ outW stW rfl

/-- C4: when any prop has a default value (`hasDefaults`), every recorded
prop-read site is replaced by the prop's bare canonical local identifier;
otherwise every recorded bare props-object access site is replaced by its
`props` property so the read goes through the `props` parameter; and the
resulting arrow function has exactly one parameter named `props` when
`needsProps` holds and zero parameters otherwise. -/
theorem prop_sites_and_params (head : ComponentHead) (body : ComponentBody) (ts : Bool)
    (st : ImportState) (out : TransformOutput) (st' : ImportState)
    (h : transformClass head body ts st = .ok (out, st')) :
    (body.props.hasDefaults = true → ∀ np ∈ body.props.props, ∀ s ∈ np.2.sites,
        (s.siteId, Expr.ident np.2.newAliasName) ∈ out.rewrites) ∧
    (body.props.hasDefaults = false → ∀ s ∈ body.props.sites,
        (s.siteId, s.property) ∈ out.rewrites) ∧
    (body.props.hasDefaults = false → ∀ s ∈ body.props.sites,
        s.property = Expr.ident "props" →
        (s.siteId, Expr.ident "props") ∈ out.rewrites) ∧
    out.funcParams = (if needsProps body then [Pat.id "props" none] else []) := by
  have hF := transformClass_fields head body ts st out st' h
  have hmem : ∀ p : Nat × Expr, p ∈ propSiteRewrites body → p ∈ out.rewrites := by
    intro p hp
    rw [hF.1]
    show p ∈ propSiteRewrites body ++ stateSiteRewrites body ++ fieldSiteRewrites body
    exact List.mem_append.mpr (Or.inl (List.mem_append.mpr (Or.inl hp)))
  refine ⟨?_, ?_, ?_, hF.2.2.1.trans rfl⟩
  · intro hd np hnp s hs
    refine hmem _ ?_
    simp only [propSiteRewrites, hd, if_true, List.mem_flatMap]
    exact ⟨np, hnp, List.mem_map_of_mem _ hs⟩
  · intro hd s hs
    refine hmem _ ?_
    simp only [propSiteRewrites, hd, Bool.false_eq_true, if_false]
    exact List.mem_map_of_mem _ hs
  · intro hd s hs hp
    have := hmem (s.siteId, s.property) (by
      simp only [propSiteRewrites, hd, Bool.false_eq_true, if_false]
      exact List.mem_map_of_mem _ hs)
    rw [hp] at this
    exact this

/-- Witness for C4: the theorem applied to the concrete component
`head0` / `bodyW` (which has `hasDefaults`). -/
theorem prop_sites_and_params_witness :
    (bodyW.props.hasDefaults = true → ∀ np ∈ bodyW.props.props, ∀ s ∈ np.2.sites,
        (s.siteId, Expr.ident np.2.newAliasName) ∈ outW.rewrites) ∧
    (bodyW.props.hasDefaults = false → ∀ s ∈ bodyW.props.sites,
        (s.siteId, s.property) ∈ outW.rewrites) ∧
    (bodyW.props.hasDefaults = false → ∀ s ∈ bodyW.props.sites,
        s.property = Expr.ident "props" →
        (s.siteId, Expr.ident "props") ∈ outW.rewrites) ∧
    outW.funcParams = (if needsProps bodyW then [Pat.id "props" none] else []) :=
  prop_sites_and_params head0 bodyW false ⟨[], []⟩ outW stW rfl

/-- A minimal component body containing only the ref-container field
`box` with one read site. -/
def bodyRef : ComponentBody :=
  { props := { props := [], hasDefaults := false, sites := [] },
    state := [],
    userDefined := { fields := [("box", boxField)] },
    locals := { removePaths := [] },
    render := { body := [], renames := [] } }

/-- C5 counterexample: a ref-container (no-argument ref constructor)
field's bare read site is rewritten to the field's local name itself,
not to a `.current` access on it, so the claimed `.current` rewrite does
not appear among the emitted replacements. -/
theorem ref_container_site_counterexample :
    (getOkD (transformClass head0 bodyRef false ⟨[], []⟩)).1.rewrites =
      [(7, Expr.ident "box")] ∧
    Expr.ident "box" ≠ Expr.member (Expr.ident "box") (Expr.ident "current") false ∧
    ((7 : Nat), Expr.member (Expr.ident "box") (Expr.ident "current") false) ∉
      (getOkD (transformClass head0 bodyRef false ⟨[], []⟩)).1.rewrites := by
  refine ⟨rfl, fun h => Expr.noConfusion h, ?_⟩
  intro hmem
  have h2 : ((7 : Nat), Expr.member (Expr.ident "box") (Expr.ident "current") false) =
      ((7 : Nat), Expr.ident "box") := List.mem_singleton.mp hmem
  exact Expr.noConfusion (congrArg Prod.snd h2)

/-- C5 (amended): a ref-container field (no-argument ref constructor) is
emitted as a `useRef` call seeded with `null` and its bare read sites are
rewritten to the field's local name itself (the ref object — no
`.current` is added; a `.current` access in the source stays around the
rewritten site); a direct-ref field (explicit initial value) is emitted
as a `useRef` call seeded with that original initial-value expression and
its read sites become `<localName>.current`. -/
theorem ref_field_semantics (head : ComponentHead) (body : ComponentBody) (ts : Bool)
    (st : ImportState) (out : TransformOutput) (st' : ImportState)
    (h : transformClass head body ts st = .ok (out, st')) :
    ∀ nf ∈ body.userDefined.fields,
      (∀ tyAnn0, nf.2.kind = .userDefinedRef tyAnn0 →
        (∀ s ∈ nf.2.sites, s.kind = .expr →
            (s.siteId, Expr.ident nf.2.localName) ∈ out.rewrites) ∧
        ∃ hook, IsReactHookRef "useRef" head.superClassRef hook ∧
          refHookDecl ts nf.2.localName tyAnn0 hook Expr.nullLit ∈ out.preamble) ∧
      (∀ ie tyAnn0, nf.2.kind = .userDefinedDirectRef ie tyAnn0 →
        (∀ s ∈ nf.2.sites, s.kind = .expr →
            (s.siteId,
              Expr.member (Expr.ident nf.2.localName) (Expr.ident "current") false)
              ∈ out.rewrites) ∧
        ∃ hook, IsReactHookRef "useRef" head.superClassRef hook ∧
          refHookDecl ts nf.2.localName tyAnn0 hook ie ∈ out.preamble) := by
  have hF := transformClass_fields head body ts st out st' h
  have hmemF : ∀ p : Nat × Expr, p ∈ fieldSiteRewrites body → p ∈ out.rewrites := by
    intro p hp
    rw [hF.1]
    show p ∈ propSiteRewrites body ++ stateSiteRewrites body ++ fieldSiteRewrites body
    exact List.mem_append.mpr (Or.inr hp)
  have hpre : ∀ d : Stmt,
      d ∈ (fieldsPreamble head.superClassRef ts body.userDefined.fields
        (statePreamble head.superClassRef ts body.state st).2).1 →
      d ∈ out.preamble := by
    intro d hd
    rw [hF.2.1]
    show d ∈ propsPreamble body ++ (statePreamble head.superClassRef ts body.state st).1 ++
      (fieldsPreamble head.superClassRef ts body.userDefined.fields
        (statePreamble head.superClassRef ts body.state st).2).1
    exact List.mem_append.mpr (Or.inr hd)
  intro nf hnf
  have hmatch := forall₂_mem_left
    (fieldsPreamble_forall₂ head.superClassRef ts body.userDefined.fields
      (statePreamble head.superClassRef ts body.state st).2) nf hnf
  constructor
  · intro tyAnn0 hk
    constructor
    · intro s hs hsk
      refine hmemF _ ?_
      simp only [fieldSiteRewrites, List.mem_flatMap]
      refine ⟨nf, hnf, ?_⟩
      rw [hk]
      exact List.mem_filterMap.mpr ⟨s, hs, by rw [hsk]⟩
    · obtain ⟨d, hd, hDm⟩ := hmatch
      rw [FieldDeclMatches, hk] at hDm
      obtain ⟨hook, hh, rfl⟩ := hDm
      exact ⟨hook, hh, hpre _ hd⟩
  · intro ie tyAnn0 hk
    constructor
    · intro s hs hsk
      refine hmemF _ ?_
      simp only [fieldSiteRewrites, List.mem_flatMap]
      refine ⟨nf, hnf, ?_⟩
      rw [hk]
      exact List.mem_filterMap.mpr ⟨s, hs, by rw [hsk]⟩
    · obtain ⟨d, hd, hDm⟩ := hmatch
      rw [FieldDeclMatches, hk] at hDm
      obtain ⟨hook, hh, rfl⟩ := hDm
      exact ⟨hook, hh, hpre _ hd⟩

/-- Witness for C5: the amended theorem applied to the concrete
component `head0` / `bodyW` at its ref-container field `box` and its
direct-ref field `cnt`. -/
theorem ref_field_semantics_witness :
    (((7 : Nat), Expr.ident "box") ∈ outW.rewrites ∧
      ∃ hook, IsReactHookRef "useRef" head0.superClassRef hook ∧
        refHookDecl false "box" none hook Expr.nullLit ∈ outW.preamble) ∧
    (((8 : Nat), Expr.member (Expr.ident "cnt") (Expr.ident "current") false)
        ∈ outW.rewrites ∧
      ∃ hook, IsReactHookRef "useRef" head0.superClassRef hook ∧
        refHookDecl false "cnt" none hook (Expr.numLit 5) ∈ outW.preamble) := by
  have h := ref_field_semantics head0 bodyW false ⟨[], []⟩ outW stW rfl
  have hbox := (h ("box", boxField) (List.mem_cons_self _ _)).1 none rfl
  have hcnt := (h ("cnt", cntField)
    (List.mem_cons_of_mem _ (List.mem_singleton.mpr rfl))).2 (Expr.numLit 5) none rfl
  exact ⟨⟨hbox.1 ⟨7, .expr⟩ (List.mem_singleton.mpr rfl) rfl, hbox.2⟩,
         ⟨hcnt.1 ⟨8, .expr⟩ (List.mem_singleton.mpr rfl) rfl, hcnt.2⟩⟩

/-- A concrete expression-bodied arrow node. -/
def arrowNodeX : FunctionLike :=
  .mk .arrowFunctionExpression none [] (FnBody.expr (Expr.ident "x")) false false none

/-- C6 counterexample: the to-arrow conversion does not normalize an
expression-bodied arrow into a block body with an explicit return (it
passes the body through unchanged), and it does not carry the generator
flag (a generator function expression converts to a non-generator
arrow). -/
theorem arrow_from_counterexample :
    arrowFunctionExpressionFrom arrowNodeX =
      Expr.arrowFunctionExpression [] (FnBody.expr (Expr.ident "x")) false false none ∧
    Expr.arrowFunctionExpression [] (FnBody.expr (Expr.ident "x")) false false none ≠
      Expr.arrowFunctionExpression []
        (FnBody.block [Stmt.returnStatement (Expr.ident "x")]) false false none ∧
    arrowFunctionExpressionFrom
        (FunctionLike.mk .functionExpression none [] (FnBody.block []) true false none) =
      Expr.arrowFunctionExpression [] (FnBody.block []) false false none := by
  refine ⟨rfl, ?_, rfl⟩
  intro h
  injection h with h1 h2
  exact FnBody.noConfusion h2

/-- C6 (amended): each conversion is total; the to-function-declaration
and to-function-expression conversions normalize an expression body into
a block with an explicit return statement and carry the generator flag,
the async flag and the return-type annotation; the to-arrow conversion
passes the body through unchanged (an expression body stays an
expression body), carries the async flag and the return-type annotation,
and always produces a non-generator arrow. -/
theorem node_normalizer_conversions :
    (∀ (k : FnKind) (i : Option String) (p : List Pat) (b : FnBody) (g a : Bool)
        (rt : Option TSType) (name : Option String),
      functionDeclarationFrom (.mk k i p b g a rt) name =
        Stmt.functionDeclaration (nameOrFunctionName name (.mk k i p b g a rt)) p
          (blockBodyOf b) g a rt) ∧
    (∀ (k : FnKind) (i : Option String) (p : List Pat) (b : FnBody) (g a : Bool)
        (rt : Option TSType) (name : Option String),
      functionExpressionFrom (.mk k i p b g a rt) name =
        Expr.functionExpression (nameOrFunctionName name (.mk k i p b g a rt)) p
          (blockBodyOf b) g a rt) ∧
    (∀ (k : FnKind) (i : Option String) (p : List Pat) (b : FnBody) (g a : Bool)
        (rt : Option TSType),
      arrowFunctionExpressionFrom (.mk k i p b g a rt) =
        Expr.arrowFunctionExpression p b false a rt) ∧
    (∀ e : Expr, blockBodyOf (FnBody.expr e) = [Stmt.returnStatement e]) ∧
    (∀ ss : List Stmt, blockBodyOf (FnBody.block ss) = ss) :=
  ⟨fun _ _ _ _ _ _ _ _ => rfl, fun _ _ _ _ _ _ _ _ => rfl,
   fun _ _ _ _ _ _ _ => rfl, fun _ => rfl, fun _ => rfl⟩

/-- A named-import state where the requested hook name `useState` is
already bound in the import declaration's scope (a user binding), so the
collision path of `getReactImport` is taken. -/
def collisionState : ImportState :=
  { specifiers := [.importSpecifier "Component" "Component"],
    bindings := ["Component", "useState"] }

/-- C7 (bug demonstration at the failing input): on a named-import
reference with a colliding binding, `getReactImport "useState"` inserts a
specifier whose imported name is the generated uid (`_useState`), not
`useState`; the lookup loop (which searches by imported name) therefore
never finds it, and a repeated request for the same name inserts a
second specifier (`_useState2`) — the specifier list is mutated twice for
one distinct requested name, and neither inserted specifier imports
`useState`. Without a collision the insertion is found again and reused,
which is the claimed (and evidently intended) behaviour. -/
theorem getReactImport_collision_reinserts :
    (getReactImport "useState" .named collisionState).1 = Expr.ident "_useState" ∧
    (getReactImport "useState" .named collisionState).2.specifiers =
      [.importSpecifier "Component" "Component",
       .importSpecifier "_useState" "_useState"] ∧
    findImportSpec "useState"
      (getReactImport "useState" .named collisionState).2.specifiers = none ∧
    (getReactImport "useState" .named
        (getReactImport "useState" .named collisionState).2).2.specifiers =
      [.importSpecifier "Component" "Component",
       .importSpecifier "_useState" "_useState",
       .importSpecifier "_useState2" "_useState2"] ∧
    (getReactImport "useState" .named
      { specifiers := [.importSpecifier "Component" "Component"],
        bindings := ["Component"] }).2.specifiers =
      [.importSpecifier "Component" "Component",
       .importSpecifier "useState" "useState"] ∧
    (getReactImport "useState" .named
        (getReactImport "useState" .named
          { specifiers := [.importSpecifier "Component" "Component"],
            bindings := ["Component"] }).2).2.specifiers =
      [.importSpecifier "Component" "Component",
       .importSpecifier "useState" "useState"] ∧
    (getReactImport "useState" (.global "React") ⟨[], []⟩).1 =
      Expr.member (Expr.ident "React") (Expr.ident "useState") false ∧
    (getReactImport "useState" (.ns "React") ⟨[], []⟩).1 =
      Expr.member (Expr.ident "React") (Expr.ident "useState") false :=
  ⟨rfl, rfl, rfl, rfl, rfl, rfl, rfl, rfl⟩

/-- The `optional` flag is always set by the prop-typing widening. -/
theorem widenPropTyping_optional (ty : TypingNode) :
    (widenPropTyping ty).optional = true := by
  obtain ⟨ps, opt, ta⟩ := ty
  cases ps with
  | false => rfl
  | true =>
    cases ta with
    | none => rfl
    | some ann =>
      cases ann <;> first
        | rfl
        | (rename_i types
           cases hu : types.any isUndefinedKeyword <;>
             simp [widenPropTyping, hu])

/-- The widening preserves whether the member is a property signature. -/
theorem widenPropTyping_isPropertySignature (ty : TypingNode) :
    (widenPropTyping ty).isPropertySignature = ty.isPropertySignature := by
  obtain ⟨ps, opt, ta⟩ := ty
  cases ps with
  | false => rfl
  | true =>
    cases ta with
    | none => rfl
    | some ann =>
      cases ann <;> first
        | rfl
        | (rename_i types
           cases hu : types.any isUndefinedKeyword <;>
             simp [widenPropTyping, hu])

/-- After widening a typed property signature, the annotation is a union
containing the `undefined` keyword. -/
theorem widenPropTyping_union (ty : TypingNode) (ann : TSType)
    (hps : ty.isPropertySignature = true) (hta : ty.tyAnn = some ann) :
    unionWithUndefined (widenPropTyping ty).tyAnn = true := by
  obtain ⟨ps, opt, ta⟩ := ty
  subst hps
  simp only at hta
  subst hta
  cases ann with
  | tsUnion types =>
    cases hu : types.any isUndefinedKeyword with
    | true => simp [widenPropTyping, hu, unionWithUndefined]
    | false =>
      simp [widenPropTyping, hu, unionWithUndefined, List.any_append, isUndefinedKeyword]
  | tsUndefinedKeyword => simp [widenPropTyping, unionWithUndefined, isUndefinedKeyword]
  | tsNumberKeyword => simp [widenPropTyping, unionWithUndefined, isUndefinedKeyword]
  | tsTypeReference n tp => simp [widenPropTyping, unionWithUndefined, isUndefinedKeyword]
  | tsFunctionType p r => simp [widenPropTyping, unionWithUndefined, isUndefinedKeyword]
  | tsOther t => simp [widenPropTyping, unionWithUndefined, isUndefinedKeyword]

/-- When the annotation is already a union containing the `undefined`
keyword, the widening leaves it unchanged. -/
theorem widenPropTyping_already (ty : TypingNode) (ann : TSType)
    (hps : ty.isPropertySignature = true) (hta : ty.tyAnn = some ann)
    (hu : unionWithUndefined (some ann) = true) :
    (widenPropTyping ty).tyAnn = some ann := by
  obtain ⟨ps, opt, ta⟩ := ty
  subst hps
  simp only at hta
  subst hta
  cases ann with
  | tsUnion types =>
    simp only [unionWithUndefined] at hu
    simp [widenPropTyping, hu]
  | tsUndefinedKeyword => simp [unionWithUndefined] at hu
  | tsNumberKeyword => simp [unionWithUndefined] at hu
  | tsTypeReference n tp => simp [unionWithUndefined] at hu
  | tsFunctionType p r => simp [unionWithUndefined] at hu
  | tsOther t => simp [unionWithUndefined] at hu

/-- C8: for every prop with both a default value and a recorded typing
reference, the rewriter records a typing update that marks the member
optional and — when it is a TS property signature with an annotation —
widens the annotation to a union containing the `undefined` keyword,
leaving an annotation that is already such a union unchanged; a prop with
default `1` and declared type `number` ends up destructured as `foo = 1`
with its type widened to `number | undefined`. -/
theorem default_prop_typing (head : ComponentHead) (body : ComponentBody) (ts : Bool)
    (st : ImportState) (out : TransformOutput) (st' : ImportState)
    (n : String) (prop : PropBinding) (ty : TypingNode)
    (h : transformClass head body ts st = .ok (out, st'))
    (hmem : (n, prop) ∈ body.props.props)
    (hdef : prop.defaultValue.isSome = true)
    (hty : prop.typing = some ty) :
    (n, widenPropTyping ty) ∈ out.typingUpdates ∧
    (widenPropTyping ty).optional = true ∧
    (widenPropTyping ty).isPropertySignature = ty.isPropertySignature ∧
    (∀ ann, ty.isPropertySignature = true → ty.tyAnn = some ann →
      unionWithUndefined (widenPropTyping ty).tyAnn = true) ∧
    (∀ ann, ty.isPropertySignature = true → ty.tyAnn = some ann →
      unionWithUndefined (some ann) = true → (widenPropTyping ty).tyAnn = some ann) ∧
    widenPropTyping fooTyping =
      { isPropertySignature := true, optional := true,
        tyAnn := some (TSType.tsUnion [TSType.tsNumberKeyword, TSType.tsUndefinedKeyword]) } ∧
    propObjProp ("foo", fooProp) =
      ObjProp.mk "foo" (Pat.assignmentPattern (Pat.id "foo" none) (Expr.numLit 1))
        false true := by
  have hF := transformClass_fields head body ts st out st' h
  refine ⟨?_, widenPropTyping_optional ty, widenPropTyping_isPropertySignature ty,
    fun ann hps hta => widenPropTyping_union ty ann hps hta,
    fun ann hps hta hu => widenPropTyping_already ty ann hps hta hu, rfl, rfl⟩
  rw [hF.2.2.2.2]
  show (n, widenPropTyping ty) ∈ propTypingUpdates body
  obtain ⟨dv, hdv⟩ := Option.isSome_iff_exists.mp hdef
  refine List.mem_filterMap.mpr ⟨(n, prop), hmem, ?_⟩
  rw [hdv, hty]

/-- Witness for C8: the theorem applied to the concrete component
`head0` / `bodyW`, whose prop `foo` has default `1` and declared type
`number`. -/
theorem default_prop_typing_witness :
    ("foo", widenPropTyping fooTyping) ∈ outW.typingUpdates ∧
    (widenPropTyping fooTyping).optional = true ∧
    (widenPropTyping fooTyping).isPropertySignature = fooTyping.isPropertySignature ∧
    (∀ ann, fooTyping.isPropertySignature = true → fooTyping.tyAnn = some ann →
      unionWithUndefined (widenPropTyping fooTyping).tyAnn = true) ∧
    (∀ ann, fooTyping.isPropertySignature = true → fooTyping.tyAnn = some ann →
      unionWithUndefined (some ann) = true →
      (widenPropTyping fooTyping).tyAnn = some ann) ∧
    widenPropTyping fooTyping =
      { isPropertySignature := true, optional := true,
        tyAnn := some (TSType.tsUnion [TSType.tsNumberKeyword, TSType.tsUndefinedKeyword]) } ∧
    propObjProp ("foo", fooProp) =
      ObjProp.mk "foo" (Pat.assignmentPattern (Pat.id "foo" none) (Expr.numLit 1))
        false true :=
  default_prop_typing head0 bodyW false ⟨[], []⟩ outW stW "foo" fooProp fooTyping
    rfl (List.mem_singleton.mpr rfl) rfl rfl
